import Mathlib

/-
  Verification of the connection-manager core declared in
  src/include/aerospike.h.  The header ships only declarations and doc
  comments; the behaviour of the core (edition detection, endpoint
  resolution, connect failover, health probing, teardown) is therefore
  modelled from the specification, faithful to its wording.  The C
  boundary encoding of aero_detect_edition follows the return-code table
  in the header doc comment (0 = community, 1 = enterprise, -1 = invalid).
-/

namespace Aerospike

/-- The external configuration collaborator: a mapping from string keys to
optional string values (absent keys yield none). -/
def Env : Type := String → Option String

/-- Product edition outcome of detection.  Invalid is a distinct normal
outcome, not a failure. -/
inductive Edition
  | community
  | enterprise
  | invalid
deriving DecidableEq

/-- Character-wise lowercase normalization of a string, used to model the
case-insensitive comparison of the Edition Detector. -/
def lowerStr (s : String) : String := ⟨s.data.map Char.toLower⟩

/-- Modelled from the spec: the Edition Detector (the implementation behind
aero_detect_edition is not in src/, only its declaration is).  Given a named
configuration key, looks up its associated string value and maps it
case-insensitively: community variants to Community, enterprise variants to
Enterprise, an absent key or any other value to Invalid.  Pure and total:
Invalid is a normal return, never a thrown error. -/
def detectEdition (env : Env) (key : String) : Edition :=
  match env key with
  | none => Edition.invalid
  | some v =>
    if lowerStr v = "community" then Edition.community
    else if lowerStr v = "enterprise" then Edition.enterprise
    else Edition.invalid

/-- Sentinel integer encoding of Edition at the C boundary, per the header
doc comment of aero_detect_edition: 0 = community, 1 = enterprise,
-1 = invalid. -/
def editionCode : Edition → Int
  | Edition.community => 0
  | Edition.enterprise => 1
  | Edition.invalid => -1

/-- Modelled from the spec: the public C surface aero_detect_edition (its
body is not in src/); it is the sentinel encoding of the core detector as
documented in the header. -/
def aero_detect_edition (env : Env) (key : String) : Int :=
  editionCode (detectEdition env key)

/-- Role of an endpoint; role establishes attempt order. -/
inductive Role
  | active
  | passive
deriving DecidableEq

/-- A candidate cluster address. -/
structure Endpoint where
  host : String
  port : Nat
  role : Role
deriving DecidableEq

/-- Configuration handed to the core, already parsed. -/
structure Config where
  endpoints : List Endpoint
deriving DecidableEq

/-- One live connection to a chosen endpoint, exclusively owned by the
Connection Supervisor. -/
structure Session where
  endpoint : Endpoint
deriving DecidableEq

/-- Two-valued liveness report of the Health Prober. -/
inductive Liveness
  | alive
  | dead
deriving DecidableEq

/-- The aggregate process-visible client object: configuration, candidate
list, optional current session, last-known liveness. -/
structure ClientState where
  config : Config
  candidates : List Endpoint
  session : Option Session
  lastLiveness : Option Liveness
deriving DecidableEq

/-- Structural initialization failure. -/
inductive InitError
  | configurationError
deriving DecidableEq

/-- Modelled from the spec: syntactic address validity checked by init
(nonempty host, port in the valid TCP range). -/
def validAddr (e : Endpoint) : Bool :=
  e.host ≠ "" && 0 < e.port && e.port ≤ 65535

/-- Modelled from the spec: the Endpoint Resolver candidate list — the
active endpoints first, then the passive endpoints, each group in
configured order (order-preserving, role-segregated). -/
def candidates (c : Config) : List Endpoint :=
  c.endpoints.filter (fun e => e.role == Role.active) ++
    c.endpoints.filter (fun e => e.role == Role.passive)

/-- Modelled from the spec: init (the body behind aero_client_init_default
is not in src/).  The core receives the configuration as an explicit value;
the ambient environment parameter is threaded only to state, and prove, that
the core never consults it.  Validates presence of at least one endpoint and
a syntactically valid address for each; fails with a ConfigurationError on a
structurally invalid configuration; performs no network I/O (its type takes
no network model at all). -/
def init (env : Env) (c : Config) : Except InitError ClientState :=
  if c.endpoints.isEmpty then Except.error InitError.configurationError
  else if c.endpoints.all validAddr then
    Except.ok
      { config := c
        candidates := candidates c
        session := none
        lastLiveness := none }
  else Except.error InitError.configurationError

/-- Releasing the held session, used by connect before re-running
failover. -/
def teardown (s : ClientState) : ClientState :=
  { s with session := none }

/-- Outcome tag of connect. -/
inductive ConnectResult
  | success
  | connectError
deriving DecidableEq

/-- Modelled from the spec: one resolution pass of the failover algorithm —
try each candidate in order against the network (modelled as a predicate
saying which endpoints accept a connection); first success wins; returns the
list of endpoints actually attempted together with the established session,
if any.  Ordered, first-success, exhaustive-before-failure, no
randomization. -/
def tryConnect (net : Endpoint → Bool) : List Endpoint → List Endpoint × Option Session
  | [] => ([], none)
  | e :: rest =>
    if net e then ([e], some ⟨e⟩)
    else
      let r := tryConnect net rest
      (e :: r.1, r.2)

/-- Result record of a connect call: the tag, the attempt trace, and the
updated client state. -/
structure ConnectOutcome where
  result : ConnectResult
  attempts : List Endpoint
  state : ClientState
deriving DecidableEq

/-- Modelled from the spec: connect (the body behind aero_client_connect is
not in src/).  First tears down any existing session (no leaked sessions),
then iterates the resolver sequence; the first successful attempt stores the
session and returns success; if every endpoint fails it returns
ConnectError with the session field left empty. -/
def connect (net : Endpoint → Bool) (s : ClientState) : ConnectOutcome :=
  let s0 := teardown s
  let r := tryConnect net s0.candidates
  match r.2 with
  | some sess =>
    { result := ConnectResult.success
      attempts := r.1
      state := { s0 with session := some sess } }
  | none =>
    { result := ConnectResult.connectError
      attempts := r.1
      state := s0 }

/-- Outcome of one administrative statistics probe against a live session:
a response (well-formed or malformed), a timeout, or a transport error. -/
inductive ProbeOutcome
  | response (wellFormed : Bool)
  | timeout
  | transportError
deriving DecidableEq

/-- Modelled from the spec: folding of a probe outcome into the two-valued
liveness report — Alive iff a well-formed response arrived before timeout;
Dead on timeout, transport error, or malformed response. -/
def probeResult : ProbeOutcome → Liveness
  | ProbeOutcome.response true => Liveness.alive
  | ProbeOutcome.response false => Liveness.dead
  | ProbeOutcome.timeout => Liveness.dead
  | ProbeOutcome.transportError => Liveness.dead

/-- Modelled from the spec: ping (the body behind aero_client_ping is not in
src/).  With no established session it reports Dead without consulting the
network probe at all; with a session it issues one probe and folds the
outcome into Alive or Dead.  It records last-known liveness but never
mutates the session field: remediation belongs to the caller. -/
def ping (probe : Session → ProbeOutcome) (s : ClientState) :
    Liveness × ClientState :=
  match s.session with
  | none => (Liveness.dead, { s with lastLiveness := some Liveness.dead })
  | some sess =>
    let l := probeResult (probe sess)
    (l, { s with lastLiveness := some l })

/-- Modelled from the spec: deinit (the body behind aero_client_deinit is
not in src/).  Releases the held session if present and clears all fields;
total by construction, hence infallible; safe on a never-connected or
already-closed state. -/
def deinit (s : ClientState) : ClientState :=
  { config := { endpoints := [] }
    candidates := []
    session := none
    lastLiveness := none }

/-- Head case of List.getD, stated locally for the failover lemmas. -/
theorem getD_head (a : Endpoint) (l : List Endpoint) (d : Endpoint) :
    (a :: l).getD 0 d = a := rfl

/-- Tail case of List.getD, stated locally for the failover lemmas. -/
theorem getD_tail (a : Endpoint) (l : List Endpoint) (d : Endpoint) (n : Nat) :
    (a :: l).getD (n + 1) d = l.getD n d := rfl

/-- When every candidate fails, one resolution pass attempts the whole list
in order and establishes no session. -/
theorem tryConnect_all_fail (net : Endpoint → Bool) :
    ∀ cs : List Endpoint, (∀ e ∈ cs, net e = false) →
      tryConnect net cs = (cs, none) := by
  intro cs
  induction cs with
  | nil => intro _; rfl
  | cons e rest ih =>
    intro h
    have he : net e = false := h e (List.mem_cons_self e rest)
    have hr := ih (fun x hx => h x (List.mem_cons_of_mem e hx))
    simp [tryConnect, he, hr]

/-- When the first k candidates fail and the candidate at index k accepts,
one resolution pass attempts exactly the first k + 1 candidates in order and
establishes a session to the candidate at index k. -/
theorem tryConnect_at (net : Endpoint → Bool) (d : Endpoint) :
    ∀ (cs : List Endpoint) (k : Nat), k < cs.length →
      (∀ j, j < k → net (cs.getD j d) = false) →
      net (cs.getD k d) = true →
      tryConnect net cs = (cs.take (k + 1), some ⟨cs.getD k d⟩) := by
  intro cs
  induction cs with
  | nil => intro k hk _ _; exact absurd hk (Nat.not_lt_zero k)
  | cons e rest ih =>
    intro k hk hbefore hat
    cases k with
    | zero =>
      have he : net e = true := hat
      simp [tryConnect, he, getD_head]
    | succ j =>
      have he : net e = false := hbefore 0 (Nat.succ_pos j)
      have hrest := ih j (Nat.lt_of_succ_lt_succ hk)
        (fun i hi => hbefore (i + 1) (Nat.succ_lt_succ hi)) hat
      simp [tryConnect, he, hrest, getD_tail]

/-- A session established by a resolution pass is live: its endpoint
accepted the connection. -/
theorem tryConnect_live (net : Endpoint → Bool) :
    ∀ (cs : List Endpoint) (sess : Session),
      (tryConnect net cs).2 = some sess → net sess.endpoint = true := by
  intro cs
  induction cs with
  | nil => intro sess h; simp [tryConnect] at h
  | cons e rest ih =>
    intro sess h
    by_cases he : net e = true
    · simp [tryConnect, he] at h
      rw [← h]
      exact he
    · have he2 : net e = false := by
        exact Bool.eq_false_iff.mpr (fun hc => he hc)
      simp [tryConnect, he2] at h
      exact ih sess h

/-- Concrete active endpoint from the spec scenario. -/
def a0 : Endpoint := { host := "10.0.0.1", port := 3000, role := Role.active }

/-- Concrete passive endpoint from the spec scenario. -/
def p0 : Endpoint := { host := "10.0.0.2", port := 3000, role := Role.passive }

/-- Concrete two-endpoint configuration. -/
def cfg1 : Config := { endpoints := [a0, p0] }

/-- Concrete initialized, not yet connected client state. -/
def s1 : ClientState :=
  { config := cfg1, candidates := [a0, p0], session := none, lastLiveness := none }

/-- Concrete already-connected client state. -/
def sConn : ClientState := { s1 with session := some { endpoint := p0 } }

/-- Network model in which only the passive endpoint accepts. -/
def net0 (e : Endpoint) : Bool := e.host == "10.0.0.2"

/-- Network model in which no endpoint accepts. -/
def netNone : Endpoint → Bool := fun _ => false

/-- Network model in which every endpoint accepts. -/
def netAll : Endpoint → Bool := fun _ => true

/-- Probe model in which every probe times out. -/
def probeAllTimeout : Session → ProbeOutcome := fun _ => ProbeOutcome.timeout

/-- Concrete environment holding an upper-case edition value. -/
def env1 : Env := fun k => if k = "EDITION" then some ("ENTERPRISE") else none

/-- Configuration with zero endpoints. -/
def emptyConfig : Config := { endpoints := [] }

/-- Claim C1: for a configuration with one active endpoint and N passive
endpoints in which only the K-th candidate (1-indexed, counting the active
endpoint first; here K = k + 1 with k the 0-based index) accepts
connections, connect attempts endpoints in the fixed order active,
passive-1, ..., passive-N, succeeds exactly at the K-th attempt, and makes
exactly K attempts — no more, no fewer; connect is a pure function of the
network model and the state, hence deterministic, with no randomization. -/
theorem connect_ordered_failover (net : Endpoint → Bool) (d a : Endpoint)
    (ps : List Endpoint) (s : ClientState) (k : Nat)
    (ha : a.role = Role.active) (hps : ∀ p ∈ ps, p.role = Role.passive)
    (hcand : s.candidates = a :: ps)
    (hk : k < (a :: ps).length)
    (hbefore : ∀ j, j < k → net ((a :: ps).getD j d) = false)
    (hat : net ((a :: ps).getD k d) = true) :
    (connect net s).attempts = (a :: ps).take (k + 1) ∧
    (connect net s).attempts.length = k + 1 ∧
    (connect net s).result = ConnectResult.success ∧
    (connect net s).state.session = some ⟨(a :: ps).getD k d⟩ := by
  have hc : (teardown s).candidates = a :: ps := hcand
  have htc := tryConnect_at net d (a :: ps) k hk hbefore hat
  have hk2 : k < ps.length + 1 := by simpa using hk
  refine ⟨?_, ?_, ?_, ?_⟩
  · simp [connect, hc, htc]
  · simp [connect, hc, htc, List.length_take]
    omega
  · simp [connect, hc, htc]
  · simp [connect, hc, htc]

/-- Witness for C1 at the concrete spec scenario: the active endpoint
10.0.0.1 is unreachable and the passive endpoint 10.0.0.2 accepts, so
connect succeeds after exactly two attempts. -/
theorem connect_ordered_failover_witness :
    s1.candidates = [a0, p0] ∧ net0 p0 = true ∧
    (connect net0 s1).attempts.length = 2 ∧
    (connect net0 s1).result = ConnectResult.success := by
  have h := connect_ordered_failover net0 a0 a0 [p0] s1 1 rfl
    (by decide) rfl (by decide)
    (by intro j hj; interval_cases j; decide) (by decide)
  exact ⟨rfl, by decide, h.2.1, h.2.2.1⟩

/-- Claim C2: on an initialized state, if every endpoint of the resolver
sequence fails to connect, connect returns ConnectError and leaves the
session field empty (no partial state), so that a subsequent ping on the
resulting state returns Dead. -/
theorem connect_exhausted_error (net : Endpoint → Bool)
    (probe : Session → ProbeOutcome) (s : ClientState)
    (hfail : ∀ e ∈ s.candidates, net e = false) :
    (connect net s).result = ConnectResult.connectError ∧
    (connect net s).state.session = none ∧
    (ping probe (connect net s).state).1 = Liveness.dead := by
  have htc := tryConnect_all_fail net s.candidates hfail
  refine ⟨?_, ?_, ?_⟩ <;> simp [connect, teardown, htc, ping]

/-- Witness for C2: with a network in which no endpoint accepts, connect on
the concrete state returns ConnectError and a subsequent ping is Dead. -/
theorem connect_exhausted_error_witness :
    (∀ e ∈ s1.candidates, netNone e = false) ∧
    (connect netNone s1).result = ConnectResult.connectError ∧
    (ping probeAllTimeout (connect netNone s1).state).1 = Liveness.dead := by
  have h := connect_exhausted_error netNone probeAllTimeout s1 (by decide)
  exact ⟨by decide, h.1, h.2.2⟩

/-- Claim C3: detectEdition maps the looked-up value case-insensitively —
every case variant of community (a string whose lowercase form is
community) maps to Community, every case variant of enterprise maps to
Enterprise, and an absent key or any other string maps to Invalid; the
detector is a total function, so Invalid is a normal return value, never a
thrown error or panic. -/
theorem detectEdition_case_insensitive (env : Env) (key : String) :
    (env key = none → detectEdition env key = Edition.invalid) ∧
    (∀ v, env key = some v →
      (lowerStr v = "community" → detectEdition env key = Edition.community) ∧
      (lowerStr v = "enterprise" → detectEdition env key = Edition.enterprise) ∧
      (lowerStr v ≠ "community" → lowerStr v ≠ "enterprise" →
        detectEdition env key = Edition.invalid)) := by
  constructor
  · intro h
    simp [detectEdition, h]
  · intro v hv
    refine ⟨?_, ?_, ?_⟩
    · intro h
      simp [detectEdition, hv, h]
    · intro h
      by_cases hcomm : lowerStr v = "community"
      · rw [hcomm] at h
        exact absurd h (by decide)
      · simp [detectEdition, hv, hcomm, h]
    · intro h1 h2
      simp [detectEdition, hv, h1, h2]

/-- Witness for C3: the upper-case value ENTERPRISE maps to Enterprise. -/
theorem detectEdition_case_insensitive_witness :
    env1 ("EDITION") = some ("ENTERPRISE") ∧
    lowerStr ("ENTERPRISE") = "enterprise" ∧
    detectEdition env1 ("EDITION") = Edition.enterprise := by
  have h := (detectEdition_case_insensitive env1 ("EDITION")).2
    ("ENTERPRISE") (by decide)
  exact ⟨by decide, by decide, h.2.1 (by decide)⟩

/-- Claim C4: for every configuration with zero endpoints, init returns a
ConfigurationError; init takes no network model at all, so it performs no
network I/O, and since the error returns no ClientState such a
configuration never reaches connect. -/
theorem init_empty_config_error (env : Env) (c : Config)
    (h : c.endpoints = []) :
    init env c = Except.error InitError.configurationError := by
  simp [init, h]

/-- Witness for C4: the empty configuration yields a ConfigurationError. -/
theorem init_empty_config_error_witness :
    emptyConfig.endpoints = [] ∧
    init env1 emptyConfig = Except.error InitError.configurationError :=
  ⟨rfl, init_empty_config_error env1 emptyConfig rfl⟩

/-- Claim C5: on a state with no established session (including a
never-connected one) ping returns Dead — not an error — and consults no
network probe, since its result is the same for every probe model; in
general the result of ping is one of exactly the two values Alive and Dead,
and every underlying fault — timeout, transport error, malformed response —
is folded into Dead. -/
theorem ping_two_valued_dead (p1 p2 : Session → ProbeOutcome)
    (s : ClientState) :
    (s.session = none →
      (ping p1 s).1 = Liveness.dead ∧ ping p1 s = ping p2 s) ∧
    ((ping p1 s).1 = Liveness.alive ∨ (ping p1 s).1 = Liveness.dead) ∧
    (∀ sess, s.session = some sess →
      (p1 sess = ProbeOutcome.timeout ∨
        p1 sess = ProbeOutcome.transportError ∨
        p1 sess = ProbeOutcome.response false) →
      (ping p1 s).1 = Liveness.dead) := by
  refine ⟨?_, ?_, ?_⟩
  · intro h
    exact ⟨by simp [ping, h], by simp [ping, h]⟩
  · cases h2 : (ping p1 s).1 with
    | alive => exact Or.inl rfl
    | dead => exact Or.inr rfl
  · intro sess hs hp
    rcases hp with h | h | h <;> simp [ping, hs, h, probeResult]

/-- Witness for C5: ping on the concrete never-connected state is Dead. -/
theorem ping_two_valued_dead_witness :
    s1.session = none ∧ (ping probeAllTimeout s1).1 = Liveness.dead := by
  have h := (ping_two_valued_dead probeAllTimeout probeAllTimeout s1).1 rfl
  exact ⟨rfl, h.1⟩

/-- Claim C6: deinit is idempotent and infallible — it is a total function,
so it never fails, even on a never-connected or already-closed state; a
second call in succession produces no observable difference, and after the
first call the session is released. -/
theorem deinit_idempotent (s : ClientState) :
    deinit (deinit s) = deinit s ∧ (deinit s).session = none :=
  ⟨rfl, rfl⟩

/-- Claim C7: the session field is an Option, holding either nothing or
exactly one session; after connect any held session is live (its endpoint
accepted the connection), and connect on an already-connected state first
tears down the existing session before re-running failover — its outcome on
any state equals its outcome on the torn-down state, so no session is
leaked into the result. -/
theorem connect_session_invariant (net : Endpoint → Bool) (s : ClientState) :
    connect net s = connect net (teardown s) ∧
    (∀ sess, (connect net s).state.session = some sess →
      net sess.endpoint = true) := by
  constructor
  · rfl
  · intro sess h
    cases htc : (tryConnect net s.candidates).2 with
    | none => simp [connect, teardown, htc] at h
    | some sess2 =>
      have h2 : sess2 = sess := by
        simp [connect, teardown, htc] at h
        exact h
      exact h2 ▸ tryConnect_live net s.candidates sess2 htc

/-- Witness for C7: connecting the already-connected concrete state under a
fully accepting network replaces the old session by a live session to the
first candidate. -/
theorem connect_session_invariant_witness :
    sConn.session = some { endpoint := p0 } ∧
    (connect netAll sConn).state.session = some { endpoint := a0 } ∧
    netAll a0 = true := by
  have h := (connect_session_invariant netAll sConn).2
    { endpoint := a0 } (by decide)
  exact ⟨rfl, by decide, h⟩

/-- Claim C8: ping never mutates the session field (nor the configuration
or the candidate list): for every probe model — in particular every failing
probe — and every state, the state returned by ping carries the same
session; ping only reports liveness, teardown and reconnection belong to
the caller. -/
theorem ping_session_frame (probe : Session → ProbeOutcome)
    (s : ClientState) :
    ((ping probe s).2).session = s.session ∧
    ((ping probe s).2).config = s.config ∧
    ((ping probe s).2).candidates = s.candidates := by
  cases hs : s.session <;> simp [ping, hs]

/-- Claim C9: init receives its configuration as an explicit value and
consults no ambient global environment — for any two ambient environments
its result on the same configuration argument is identical, so the result
depends only on the configuration. -/
theorem init_env_independent (e1 e2 : Env) (c : Config) :
    init e1 c = init e2 c := rfl

/-- Claim C10: at the public C interface aero_detect_edition is total over
all inputs and its integer result is always exactly one of the three codes
0 (community), 1 (enterprise) and -1 (invalid) — no other value is ever
returned — and each code holds precisely when the abstract detector returns
the corresponding Edition value. -/
theorem aero_detect_edition_codes (env : Env) (key : String) :
    (aero_detect_edition env key = 0 ∨ aero_detect_edition env key = 1 ∨
      aero_detect_edition env key = -1) ∧
    (aero_detect_edition env key = 0 ↔
      detectEdition env key = Edition.community) ∧
    (aero_detect_edition env key = 1 ↔
      detectEdition env key = Edition.enterprise) ∧
    (aero_detect_edition env key = -1 ↔
      detectEdition env key = Edition.invalid) := by
  cases h : detectEdition env key <;>
    simp [aero_detect_edition, h, editionCode]

end Aerospike
